import Mathlib

/-!
Verification of the multi-portal tender scraper (production_portal_scraper.py,
production_orchestrator.py, data_aggregation.py).

The Python source is shallowly embedded: the SQLite tenders table becomes a
list of rows, the browser DOM control becomes an explicit structure, blocking
external calls (classifier service, DOM queries) become oracle parameters, and
exceptions become Except values.  Timestamps (CURRENT_TIMESTAMP) are passed
explicitly as natural numbers.
-/

/-- ASCII case folding of one character, for the lower() calls of the source
(the attribute values and error messages involved are ASCII). -/
def lowerChar (c : Char) : Char :=
  if 65 ≤ c.toNat ∧ c.toNat ≤ 90 then Char.ofNat (c.toNat + 32) else c

/-- Python str.lower() on the ASCII fragment. -/
def str_lower (s : String) : String := String.mk (s.data.map lowerChar)

/-- Does the character list start with the pattern list. -/
def charsStartWith : List Char → List Char → Bool
  | _, [] => true
  | [], _ :: _ => false
  | c :: cs, p :: ps => c == p && charsStartWith cs ps

/-- Does the pattern occur as a contiguous sublist. -/
def charsContain (pat : List Char) : List Char → Bool
  | [] => pat.isEmpty
  | c :: cs => charsStartWith (c :: cs) pat || charsContain pat cs

/-- Substring test, modelling the Python expression pat in s. -/
def containsSubstr (s pat : String) : Bool :=
  charsContain pat.data s.data

/- ======================= PAGINATION CONTROL (is_next_button_available) ===== -/

/-- State of the a#linkFwd element as observed through the browser driver:
visibility, the class attribute, the disabled attribute, the result of the
is_enabled probe (none models the probe raising, which the source swallows),
and the href attribute. -/
structure NextControl where
  visible : Bool
  classAttr : Option String
  disabledAttr : Option String
  enabledCheck : Option Bool
  href : Option String
deriving DecidableEq

/-- Python truth test plus the two placeholder comparisons on the href:
not href or href == "#" or href == "javascript:void(0)". -/
def invalidHref (h : Option String) : Bool :=
  match h with
  | none => true
  | some s => s = "" || s = "#" || s = "javascript:void(0)"

/-- Embedding of IsolatedPortalScraper.is_next_button_available.  The argument
is none when a#linkFwd is not found by query_selector.  Returns the
(available, reason) pair of the source. -/
def is_next_button_available (ctrl : Option NextControl) : Bool × String :=
  match ctrl with
  | none => (false, "next_link_not_found")
  | some c =>
    if !c.visible then
      (false, "next_link_hidden")
    else if containsSubstr (str_lower (c.classAttr.getD "")) "disabled" || c.disabledAttr.isSome then
      (false, "next_link_disabled")
    else if c.enabledCheck = some false then
      (false, "next_link_not_enabled")
    else if invalidHref c.href then
      (false, "next_link_invalid_href")
    else
      (true, "available")

/-- The pagination state machine of the spec: at a page, or finished. -/
inductive PageState where
  | atPage (n : Nat)
  | done
deriving DecidableEq

/-- The CheckNext transition of run_phase1: the loop breaks (state Done) when
the availability check fails, and otherwise continues with page n+1. -/
def checkNextState (ctrl : Option NextControl) (n : Nat) : PageState :=
  if (is_next_button_available ctrl).1 then .atPage (n + 1) else .done

/-- C1: each of the four conditions (control absent, present but hidden,
present but carrying a disabled class or attribute, present with an empty or
placeholder href) independently makes is_next_button_available report
end-of-data and the state machine transition to Done; a present, visible,
enabled control with a navigable href makes the check report availability and
the machine advance to page n+1. -/
theorem next_button_four_way_detection (n : Nat) (c : NextControl) :
    ((is_next_button_available none).1 = false ∧ checkNextState none n = .done)
    ∧ (c.visible = false →
        (is_next_button_available (some c)).1 = false ∧ checkNextState (some c) n = .done)
    ∧ (containsSubstr (str_lower (c.classAttr.getD "")) "disabled" = true ∨ c.disabledAttr.isSome = true →
        (is_next_button_available (some c)).1 = false ∧ checkNextState (some c) n = .done)
    ∧ (invalidHref c.href = true →
        (is_next_button_available (some c)).1 = false ∧ checkNextState (some c) n = .done)
    ∧ (c.visible = true →
        containsSubstr (str_lower (c.classAttr.getD "")) "disabled" = false →
        c.disabledAttr = none →
        c.enabledCheck ≠ some false →
        invalidHref c.href = false →
        (is_next_button_available (some c)).1 = true
          ∧ checkNextState (some c) n = .atPage (n + 1)) := by
  refine ⟨⟨rfl, rfl⟩, ?_, ?_, ?_, ?_⟩
  · intro hv
    simp [is_next_button_available, checkNextState, hv]
  · intro hd
    by_cases hv : c.visible
    · have hd' : (containsSubstr (str_lower (c.classAttr.getD "")) "disabled"
          || c.disabledAttr.isSome) = true := by
        rcases hd with h | h <;> simp [h]
      simp [is_next_button_available, checkNextState, hv, hd']
    · simp [is_next_button_available, checkNextState, hv]
  · intro hh
    by_cases hv : c.visible
    · by_cases hd : (containsSubstr (str_lower (c.classAttr.getD "")) "disabled"
          || c.disabledAttr.isSome) = true
      · simp [is_next_button_available, checkNextState, hv, hd]
      · by_cases he : c.enabledCheck = some false
        · simp [is_next_button_available, checkNextState, hv, hd, he]
        · simp [is_next_button_available, checkNextState, hv, hd, he, hh]
    · simp [is_next_button_available, checkNextState, hv]
  · intro hv hd₁ hd₂ he hh
    simp [is_next_button_available, checkNextState, hv, hd₁, hd₂, he, hh]

/-- A control that is present, visible, enabled and navigable. -/
def goodControl : NextControl :=
  { visible := true, classAttr := some "link", disabledAttr := none,
    enabledCheck := some true, href := some "/nicgep/app?page=2" }

/-- A control carrying a disabled CSS class. -/
def disabledControl : NextControl :=
  { visible := true, classAttr := some "link Disabled", disabledAttr := none,
    enabledCheck := some true, href := some "/nicgep/app?page=2" }

/-- Witness for C1: the positive branch on a concrete good control, and the
disabled branch on a concrete disabled control. -/
theorem next_button_four_way_detection_witness :
    ((is_next_button_available (some goodControl)).1 = true
      ∧ checkNextState (some goodControl) 3 = .atPage 4)
    ∧ ((is_next_button_available (some disabledControl)).1 = false
      ∧ checkNextState (some disabledControl) 3 = .done) :=
  ⟨(next_button_four_way_detection 3 goodControl).2.2.2.2
      rfl (by decide) rfl (by decide) (by decide),
    (next_button_four_way_detection 3 disabledControl).2.2.1 (Or.inl (by decide))⟩

/- ======================= STORE MODEL (tenders table, upsert) ============== -/

/-- One tender dict as produced by extract_tenders_from_page: the source
fields plus the Work Description default and the identity hash. -/
structure Tender where
  portalSource : String
  sNo : String
  ePublishedDate : String
  closingDate : String
  openingDate : String
  title : String
  orgChain : String
  detailsUrl : String
  workDescription : String
  runDate : String
  identityHash : String
deriving DecidableEq

/-- One row of the tenders table (the id autoincrement column is omitted:
nothing in the embedded operations reads it).  Timestamps are naturals. -/
structure Row where
  portal_id : String
  identity_hash : String
  portal_source : String
  s_no : String
  e_published_date : String
  closing_date : String
  opening_date : String
  title : String
  org_chain : String
  details_url : String
  work_description : String
  run_date : String
  phase1_status : String
  phase2_status : String
  ai_filtered : Int
  created_at : Nat
  updated_at : Nat
deriving DecidableEq

/-- The WHERE portal_id = ? AND identity_hash = ? test. -/
def rowMatches (pid h : String) (r : Row) : Bool :=
  r.portal_id == pid && r.identity_hash == h

/-- The UPDATE branch of upsert_tenders_batch: overwrite the nine source
columns and bump updated_at; every other column is untouched. -/
def updateRow (t : Tender) (now : Nat) (r : Row) : Row :=
  { r with
    portal_source := t.portalSource
    s_no := t.sNo
    e_published_date := t.ePublishedDate
    closing_date := t.closingDate
    opening_date := t.openingDate
    title := t.title
    org_chain := t.orgChain
    details_url := t.detailsUrl
    run_date := t.runDate
    updated_at := now }

/-- The INSERT branch of upsert_tenders_batch: a fresh row with the table
defaults phase2_status = pending, ai_filtered = 0, created_at = now. -/
def newRow (pid : String) (t : Tender) (now : Nat) : Row :=
  { portal_id := pid
    identity_hash := t.identityHash
    portal_source := t.portalSource
    s_no := t.sNo
    e_published_date := t.ePublishedDate
    closing_date := t.closingDate
    opening_date := t.openingDate
    title := t.title
    org_chain := t.orgChain
    details_url := t.detailsUrl
    work_description := t.workDescription
    run_date := t.runDate
    phase1_status := "extracted"
    phase2_status := "pending"
    ai_filtered := 0
    created_at := now
    updated_at := now }

/-- One iteration of the loop body of upsert_tenders_batch, threading the
table and the (inserted, updated) counters. -/
def upsertOne (pid : String) (now : Nat) (acc : List Row × Nat × Nat) (t : Tender) :
    List Row × Nat × Nat :=
  let db := acc.1
  if db.any (rowMatches pid t.identityHash) then
    (db.map fun r => if rowMatches pid t.identityHash r then updateRow t now r else r,
      acc.2.1, acc.2.2 + 1)
  else
    (db ++ [newRow pid t now], acc.2.1 + 1, acc.2.2)

/-- Embedding of IsolatedDatabaseManager.upsert_tenders_batch on a committed
run: the loop over the batch, returning the table and the two counters. -/
def upsert_tenders_batch (pid : String) (now : Nat) (db : List Row)
    (tenders : List Tender) : List Row × Nat × Nat :=
  tenders.foldl (upsertOne pid now) (db, 0, 0)

/-- Two rows that agree on every column except possibly updated_at. -/
def eqExceptUpdatedAt (r s : Row) : Prop :=
  { r with updated_at := s.updated_at } = s

instance (r s : Row) : Decidable (eqExceptUpdatedAt r s) := by
  unfold eqExceptUpdatedAt; infer_instance

/- ======================= UPSERT LEMMAS ==================================== -/

/-- The per-tender row transformation applied repeatedly by a batch: the
UPDATE branch on a key match, identity otherwise. -/
def foldRow (pid : String) (now : Nat) (batch : List Tender) (r : Row) : Row :=
  batch.foldl (fun r t => if rowMatches pid t.identityHash r then updateRow t now r else r) r

/-- The last tender of the batch whose key hits the row. -/
def lastMatch (pid : String) (batch : List Tender) (r : Row) : Option Tender :=
  (batch.filter fun t => rowMatches pid t.identityHash r).getLast?

theorem rowMatches_updateRow (pid h : String) (t : Tender) (now : Nat) (r : Row) :
    rowMatches pid h (updateRow t now r) = rowMatches pid h r := rfl

theorem updateRow_updateRow (t t' : Tender) (now now' : Nat) (r : Row) :
    updateRow t now (updateRow t' now' r) = updateRow t now r := rfl

theorem rowMatches_newRow_self (pid : String) (t : Tender) (now : Nat) :
    rowMatches pid t.identityHash (newRow pid t now) = true := by
  simp [rowMatches, newRow]

theorem rowMatches_upsertStep (pid h : String) (t : Tender) (now : Nat) (r : Row) :
    rowMatches pid h (if rowMatches pid t.identityHash r then updateRow t now r else r)
      = rowMatches pid h r := by
  by_cases hm : rowMatches pid t.identityHash r <;> simp [hm, rowMatches_updateRow]

theorem lastMatch_updateRow (pid : String) (bs : List Tender) (t : Tender) (now : Nat) (r : Row) :
    lastMatch pid bs (updateRow t now r) = lastMatch pid bs r := by
  unfold lastMatch
  congr 1

theorem any_rowMatches_map_update (pid h hkey : String) (t : Tender) (now : Nat) (db : List Row) :
    (db.map fun r => if rowMatches pid hkey r then updateRow t now r else r).any (rowMatches pid h)
      = db.any (rowMatches pid h) := by
  induction db with
  | nil => rfl
  | cons r rs ih =>
    simp only [List.map_cons, List.any_cons, ih]
    by_cases hm : rowMatches pid hkey r <;> simp [hm, rowMatches_updateRow]

theorem keyPresent_upsertOne_self (pid : String) (now : Nat) (acc : List Row × Nat × Nat)
    (t : Tender) :
    ((upsertOne pid now acc t).1).any (rowMatches pid t.identityHash) = true := by
  unfold upsertOne
  by_cases hex : acc.1.any (rowMatches pid t.identityHash)
  · simp only [hex, if_true]
    simp only [List.any_map, List.any_eq_true, Function.comp]
    rcases List.any_eq_true.1 hex with ⟨x, hx, hmx⟩
    exact ⟨x, hx, by rw [rowMatches_upsertStep]; exact hmx⟩
  · simp [hex, List.any_append, rowMatches_newRow_self]

theorem keyPresent_upsertOne_mono (pid h : String) (now : Nat) (acc : List Row × Nat × Nat)
    (t : Tender) (hp : acc.1.any (rowMatches pid h) = true) :
    ((upsertOne pid now acc t).1).any (rowMatches pid h) = true := by
  unfold upsertOne
  by_cases hex : acc.1.any (rowMatches pid t.identityHash)
  · simp only [hex, if_true]
    simp only [List.any_map, List.any_eq_true, Function.comp]
    rcases List.any_eq_true.1 hp with ⟨x, hx, hmx⟩
    exact ⟨x, hx, by rw [rowMatches_upsertStep]; exact hmx⟩
  · simp [hex, List.any_append, hp]

theorem keyPresent_foldl_mono (pid h : String) (now : Nat) (batch : List Tender) :
    ∀ acc : List Row × Nat × Nat, acc.1.any (rowMatches pid h) = true →
      ((batch.foldl (upsertOne pid now) acc).1).any (rowMatches pid h) = true := by
  induction batch with
  | nil => intro acc hp; exact hp
  | cons t ts ih =>
    intro acc hp
    exact ih _ (keyPresent_upsertOne_mono pid h now acc t hp)

theorem keyPresent_after_batch (pid : String) (now : Nat) (batch : List Tender) :
    ∀ acc : List Row × Nat × Nat, ∀ t ∈ batch,
      ((batch.foldl (upsertOne pid now) acc).1).any (rowMatches pid t.identityHash) = true := by
  induction batch with
  | nil => intro acc t ht; cases ht
  | cons t₀ ts ih =>
    intro acc t ht
    rcases List.mem_cons.1 ht with rfl | hmem
    · exact keyPresent_foldl_mono pid t.identityHash now ts _
        (keyPresent_upsertOne_self pid now acc t)
    · exact ih _ t hmem

theorem foldRow_nil (pid : String) (now : Nat) (r : Row) : foldRow pid now [] r = r := rfl

theorem foldRow_cons (pid : String) (now : Nat) (t : Tender) (ts : List Tender) (r : Row) :
    foldRow pid now (t :: ts) r
      = foldRow pid now ts (if rowMatches pid t.identityHash r then updateRow t now r else r) :=
  rfl

/-- When every key of the batch is already present, the whole batch is pure
update: the table is mapped row-by-row, nothing is inserted, and every tender
counts as an update. -/
theorem upsert_batch_of_all_present (pid : String) (now : Nat) (batch : List Tender) :
    ∀ (db : List Row) (i u : Nat),
      (∀ t ∈ batch, db.any (rowMatches pid t.identityHash) = true) →
      batch.foldl (upsertOne pid now) (db, i, u)
        = (db.map (foldRow pid now batch), i, u + batch.length) := by
  induction batch with
  | nil =>
    intro db i u _
    have hmap : List.map (foldRow pid now []) db = db := by
      have h0 : ∀ r ∈ db, foldRow pid now [] r = id r := fun r _ => rfl
      rw [List.map_congr_left h0, List.map_id]
    simp [hmap]
  | cons t ts ih =>
    intro db i u hpres
    have ht : db.any (rowMatches pid t.identityHash) = true := hpres t (List.mem_cons_self t ts)
    have hstep : upsertOne pid now (db, i, u) t
        = (db.map fun r => if rowMatches pid t.identityHash r then updateRow t now r else r,
            i, u + 1) := by
      unfold upsertOne
      simp [ht]
    have hpres' : ∀ t' ∈ ts,
        (db.map fun r => if rowMatches pid t.identityHash r then updateRow t now r else r).any
          (rowMatches pid t'.identityHash) = true := by
      intro t' ht'
      rw [any_rowMatches_map_update]
      exact hpres t' (List.mem_cons_of_mem t ht')
    calc (t :: ts).foldl (upsertOne pid now) (db, i, u)
        = ts.foldl (upsertOne pid now)
            (db.map fun r => if rowMatches pid t.identityHash r then updateRow t now r else r,
              i, u + 1) := by rw [List.foldl_cons, hstep]
      _ = ((db.map fun r => if rowMatches pid t.identityHash r then updateRow t now r else r).map
              (foldRow pid now ts), i, (u + 1) + ts.length) := ih _ i (u + 1) hpres'
      _ = (db.map (foldRow pid now (t :: ts)), i, u + (ts.length + 1)) := by
          rw [List.map_map]
          have hxy : u + 1 + ts.length = u + (ts.length + 1) := by omega
          rw [hxy]
          rfl

/-- On an arbitrary starting table the batch maps the original rows in place
and appends any inserted rows at the end. -/
theorem upsert_batch_prefix (pid : String) (now : Nat) (batch : List Tender) :
    ∀ (db : List Row) (i u : Nat), ∃ suffix : List Row,
      (batch.foldl (upsertOne pid now) (db, i, u)).1
        = db.map (foldRow pid now batch) ++ suffix := by
  induction batch with
  | nil =>
    intro db i u
    refine ⟨[], ?_⟩
    have h0 : ∀ r ∈ db, foldRow pid now [] r = id r := fun r _ => rfl
    rw [List.map_congr_left h0, List.map_id, List.foldl_nil, List.append_nil]
  | cons t ts ih =>
    intro db i u
    rw [List.foldl_cons]
    by_cases hex : db.any (rowMatches pid t.identityHash)
    · have hstep : upsertOne pid now (db, i, u) t
          = (db.map fun r => if rowMatches pid t.identityHash r then updateRow t now r else r,
              i, u + 1) := by
        unfold upsertOne
        simp [hex]
      rw [hstep]
      obtain ⟨suffix, hs⟩ := ih
        (db.map fun r => if rowMatches pid t.identityHash r then updateRow t now r else r) i (u + 1)
      refine ⟨suffix, ?_⟩
      rw [hs, List.map_map]
      rfl
    · have hstep : upsertOne pid now (db, i, u) t = (db ++ [newRow pid t now], i + 1, u) := by
        unfold upsertOne
        simp [hex]
      rw [hstep]
      obtain ⟨suffix, hs⟩ := ih (db ++ [newRow pid t now]) (i + 1) u
      refine ⟨List.map (foldRow pid now ts) [newRow pid t now] ++ suffix, ?_⟩
      rw [hs, List.map_append]
      have hnm : ∀ r ∈ db, rowMatches pid t.identityHash r = false := by
        intro r hr
        by_contra hc
        have : db.any (rowMatches pid t.identityHash) = true :=
          List.any_eq_true.2 ⟨r, hr, by revert hc; cases rowMatches pid t.identityHash r <;> simp⟩
        exact hex this
      have hcong : ∀ r ∈ db, foldRow pid now ts r = foldRow pid now (t :: ts) r := by
        intro r hr
        rw [foldRow_cons, hnm r hr]
        simp
      rw [List.map_congr_left hcong, List.append_assoc]

/-- The cumulative effect of the per-row batch fold: untouched when no tender
hits the row, otherwise the update of the last hitting tender. -/
theorem foldRow_eq_lastMatch (pid : String) (now : Nat) (batch : List Tender) :
    ∀ r : Row, foldRow pid now batch r
      = (match lastMatch pid batch r with
         | none => r
         | some t => updateRow t now r) := by
  induction batch with
  | nil => intro r; rfl
  | cons t ts ih =>
    intro r
    rw [foldRow_cons]
    by_cases hm : rowMatches pid t.identityHash r
    · rw [if_pos hm]
      have hpred : (fun t' => rowMatches pid t'.identityHash r) t = true := hm
      have hfil : lastMatch pid (t :: ts) r
          = ((ts.filter fun t' => rowMatches pid t'.identityHash r).getLast?).or (some t) := by
        unfold lastMatch
        rw [List.filter_cons, if_pos hpred]
        have : (t :: ts.filter fun t' => rowMatches pid t'.identityHash r)
            = [t] ++ ts.filter fun t' => rowMatches pid t'.identityHash r := rfl
        rw [this, List.getLast?_append]
        rfl
      rw [ih (updateRow t now r), lastMatch_updateRow, hfil]
      unfold lastMatch
      cases hlast : (ts.filter fun t' => rowMatches pid t'.identityHash r).getLast? with
      | none => simp [Option.or]
      | some t' => simp [Option.or, updateRow_updateRow]
    · rw [if_neg hm]
      have hfil : lastMatch pid (t :: ts) r = lastMatch pid ts r := by
        unfold lastMatch
        rw [List.filter_cons]
        have : rowMatches pid t.identityHash r = false := by
          revert hm; cases rowMatches pid t.identityHash r <;> simp
        rw [this]
        simp
      rw [ih r, hfil]

/-- Every row coming out of a batch has absorbed the last batch tender that
hits its key: re-updating it with that tender changes nothing but updated_at
(and even that only to its current value). -/
theorem absorbed_after_batch (pid : String) (now : Nat) (batch : List Tender) :
    ∀ acc : List Row × Nat × Nat, ∀ r ∈ (batch.foldl (upsertOne pid now) acc).1,
      ∀ t, lastMatch pid batch r = some t → updateRow t r.updated_at r = r := by
  induction batch using List.reverseRecOn with
  | nil =>
    intro acc r _ t hl
    simp [lastMatch] at hl
  | append_singleton ts t ih =>
    intro acc r hr t₀ hl
    rw [List.foldl_append] at hr
    have hr₁ : r ∈ (upsertOne pid now (List.foldl (upsertOne pid now) acc ts) t).1 := hr
    have ihs := ih acc
    unfold lastMatch at hl
    rw [List.filter_append] at hl
    clear hr
    generalize hX : List.foldl (upsertOne pid now) acc ts = X at hr₁ ihs
    by_cases hex : X.1.any (rowMatches pid t.identityHash)
    · have hstep : upsertOne pid now X t
          = (X.1.map fun r => if rowMatches pid t.identityHash r then updateRow t now r else r,
              X.2.1, X.2.2 + 1) := by
        unfold upsertOne
        simp [hex]
      rw [hstep] at hr₁
      rcases List.mem_map.1 hr₁ with ⟨r₀, hr₀, rfl⟩
      by_cases hm : rowMatches pid t.identityHash r₀
      · rw [if_pos hm] at hl ⊢
        have hp : rowMatches pid t.identityHash (updateRow t now r₀) = true := by
          rw [rowMatches_updateRow]; exact hm
        rw [show List.filter (fun t' => rowMatches pid t'.identityHash (updateRow t now r₀)) [t]
              = [t] from by simp [List.filter_cons, hp]] at hl
        rw [List.getLast?_concat] at hl
        cases hl
        rw [updateRow_updateRow]
        rfl
      · rw [if_neg hm] at hl ⊢
        have hp : rowMatches pid t.identityHash r₀ = false := by
          revert hm; cases rowMatches pid t.identityHash r₀ <;> simp
        rw [show List.filter (fun t' => rowMatches pid t'.identityHash r₀) [t] = [] from by
              simp [List.filter_cons, hp]] at hl
        rw [List.append_nil] at hl
        exact ihs r₀ hr₀ t₀ hl
    · have hstep : upsertOne pid now X t = (X.1 ++ [newRow pid t now], X.2.1 + 1, X.2.2) := by
        unfold upsertOne
        simp [hex]
      rw [hstep] at hr₁
      rcases List.mem_append.1 hr₁ with hmem | hnew
      · have hanyf : X.1.any (rowMatches pid t.identityHash) = false := by
          revert hex; cases X.1.any (rowMatches pid t.identityHash) <;> simp
        have hp : rowMatches pid t.identityHash r = false := by
          simpa using List.any_eq_false.1 hanyf r hmem
        rw [show List.filter (fun t' => rowMatches pid t'.identityHash r) [t] = [] from by
              simp [List.filter_cons, hp]] at hl
        rw [List.append_nil] at hl
        exact ihs r hmem t₀ hl
      · have hr' : r = newRow pid t now := by simpa using hnew
        subst hr'
        have hp : rowMatches pid t.identityHash (newRow pid t now) = true :=
          rowMatches_newRow_self pid t now
        rw [show List.filter (fun t' => rowMatches pid t'.identityHash (newRow pid t now)) [t]
              = [t] from by simp [List.filter_cons, hp]] at hl
        rw [List.getLast?_concat] at hl
        cases hl
        rfl

theorem eqExceptUpdatedAt_refl (r : Row) : eqExceptUpdatedAt r r := rfl

theorem eqExceptUpdatedAt_of_absorbed (t : Tender) (now : Nat) (r : Row)
    (h : updateRow t r.updated_at r = r) : eqExceptUpdatedAt (updateRow t now r) r := h

/-- C3: upsert_tenders_batch is idempotent: running the same batch a second
time inserts zero rows and leaves every row unchanged except possibly its
updated_at timestamp (so the row set, compared by key, is exactly that of a
single application, and only updated_at and the re-overwritten source fields
can differ). -/
theorem upsert_tenders_batch_idempotent (pid : String) (now₁ now₂ : Nat) (db : List Row)
    (batch : List Tender) :
    (upsert_tenders_batch pid now₂ (upsert_tenders_batch pid now₁ db batch).1 batch).2.1 = 0
    ∧ List.Forall₂ eqExceptUpdatedAt
        (upsert_tenders_batch pid now₂ (upsert_tenders_batch pid now₁ db batch).1 batch).1
        (upsert_tenders_batch pid now₁ db batch).1 := by
  have hpres : ∀ t ∈ batch,
      (upsert_tenders_batch pid now₁ db batch).1.any (rowMatches pid t.identityHash) = true :=
    fun t ht => keyPresent_after_batch pid now₁ batch (db, 0, 0) t ht
  have e : upsert_tenders_batch pid now₂ (upsert_tenders_batch pid now₁ db batch).1 batch
      = ((upsert_tenders_batch pid now₁ db batch).1.map (foldRow pid now₂ batch),
          0, 0 + batch.length) :=
    upsert_batch_of_all_present pid now₂ batch
      (upsert_tenders_batch pid now₁ db batch).1 0 0 hpres
  rw [e]
  refine ⟨rfl, ?_⟩
  rw [List.forall₂_map_left_iff, List.forall₂_same]
  intro r hr
  have hchar := foldRow_eq_lastMatch pid now₂ batch r
  cases hlast : lastMatch pid batch r with
  | none =>
    rw [hchar, hlast]
    exact eqExceptUpdatedAt_refl r
  | some t =>
    have habs := absorbed_after_batch pid now₁ batch (db, 0, 0) r hr t hlast
    rw [hchar, hlast]
    exact eqExceptUpdatedAt_of_absorbed t now₂ r habs

theorem mem_of_lastMatch (pid : String) (batch : List Tender) (r : Row) (t : Tender)
    (h : lastMatch pid batch r = some t) : t ∈ batch := by
  unfold lastMatch at h
  have hx : t ∈ (batch.filter fun t' => rowMatches pid t'.identityHash r).getLast? :=
    Option.mem_def.mpr h
  obtain ⟨hne, heq⟩ := List.mem_getLast?_eq_getLast hx
  exact List.mem_of_mem_filter (heq ▸ List.getLast_mem hne)

/-- C5: the batch never touches the classification state (ai_filtered), the
enrichment status (phase2_status), the enrichment text (work_description),
created_at, phase1_status or the key columns of a row already in the table:
each pre-existing row either survives unchanged or is exactly the source-field
overwrite updateRow of some batch tender. -/
theorem upsert_overwrites_only_source_fields (pid : String) (now : Nat) (db : List Row)
    (batch : List Tender) :
    List.Forall₂
      (fun r r' =>
        r'.portal_id = r.portal_id ∧ r'.identity_hash = r.identity_hash
        ∧ r'.ai_filtered = r.ai_filtered ∧ r'.phase2_status = r.phase2_status
        ∧ r'.work_description = r.work_description ∧ r'.created_at = r.created_at
        ∧ r'.phase1_status = r.phase1_status
        ∧ (r' = r ∨ ∃ t ∈ batch, r' = updateRow t now r))
      db ((upsert_tenders_batch pid now db batch).1.take db.length) := by
  obtain ⟨suffix, hs⟩ := upsert_batch_prefix pid now batch db 0 0
  have htake : (upsert_tenders_batch pid now db batch).1.take db.length
      = db.map (foldRow pid now batch) := by
    rw [show (upsert_tenders_batch pid now db batch).1
          = db.map (foldRow pid now batch) ++ suffix from hs]
    exact List.take_left' (List.length_map db _)
  rw [htake, List.forall₂_map_right_iff, List.forall₂_same]
  intro r hr
  have hchar := foldRow_eq_lastMatch pid now batch r
  cases hlast : lastMatch pid batch r with
  | none =>
    rw [hchar, hlast]
    exact ⟨rfl, rfl, rfl, rfl, rfl, rfl, rfl, Or.inl rfl⟩
  | some t =>
    rw [hchar, hlast]
    exact ⟨rfl, rfl, rfl, rfl, rfl, rfl, rfl,
      Or.inr ⟨t, mem_of_lastMatch pid batch r t hlast, rfl⟩⟩

/- ======================= TRANSACTIONAL UPSERT (C4) ======================== -/

/-- The loop of upsert_tenders_batch run on the open connection, with an
injected failure oracle: processing tender t raises when fails t, modelling a
sqlite3 error inside the try block. -/
def upsertBatchTxGo (fails : Tender → Bool) (pid : String) (now : Nat) :
    List Row × Nat × Nat → List Tender → Except String (List Row × Nat × Nat)
  | acc, [] => .ok acc
  | acc, t :: ts =>
    if fails t then .error "database error"
    else upsertBatchTxGo fails pid now (upsertOne pid now acc t) ts

/-- Embedding of the whole upsert_tenders_batch body including its
try/commit/except/rollback structure: on success the working state is
committed, on any error the durable store is left as it was before the call
and the error is re-raised to the caller. -/
def upsert_tenders_batch_tx (fails : Tender → Bool) (pid : String) (now : Nat)
    (store : List Row) (batch : List Tender) : List Row × Except String (Nat × Nat) :=
  match upsertBatchTxGo fails pid now (store, 0, 0) batch with
  | .ok (db, ins, upd) => (db, .ok (ins, upd))
  | .error e => (store, .error e)

theorem upsertBatchTxGo_ok (fails : Tender → Bool) (pid : String) (now : Nat) :
    ∀ (batch : List Tender) (acc : List Row × Nat × Nat),
      (∀ t ∈ batch, fails t = false) →
      upsertBatchTxGo fails pid now acc batch = .ok (batch.foldl (upsertOne pid now) acc) := by
  intro batch
  induction batch with
  | nil => intro acc _; rfl
  | cons t ts ih =>
    intro acc h
    have ht : fails t = false := h t (List.mem_cons_self t ts)
    unfold upsertBatchTxGo
    rw [ht]
    simp only [Bool.false_eq_true, if_false]
    exact ih _ fun t' ht' => h t' (List.mem_cons_of_mem t ht')

theorem upsertBatchTxGo_error (fails : Tender → Bool) (pid : String) (now : Nat) :
    ∀ (batch : List Tender) (acc : List Row × Nat × Nat),
      (∃ t ∈ batch, fails t = true) →
      upsertBatchTxGo fails pid now acc batch = .error "database error" := by
  intro batch
  induction batch with
  | nil => intro acc h; rcases h with ⟨t, ht, _⟩; cases ht
  | cons t ts ih =>
    intro acc h
    unfold upsertBatchTxGo
    by_cases hf : fails t = true
    · rw [hf]
      simp
    · have hf' : fails t = false := by revert hf; cases fails t <;> simp
      rw [hf']
      simp only [Bool.false_eq_true, if_false]
      rcases h with ⟨t₀, ht₀, hft₀⟩
      rcases List.mem_cons.1 ht₀ with rfl | hmem
      · exact absurd hft₀ hf
      · exact ih _ ⟨t₀, hmem, hft₀⟩

/-- C4: upsert_tenders_batch is atomic: if no record of the batch raises, the
call commits exactly the full batch application; if any record raises, the
store is left exactly as before the call and the error is propagated to the
caller. -/
theorem upsert_tenders_batch_atomic (fails : Tender → Bool) (pid : String) (now : Nat)
    (store : List Row) (batch : List Tender) :
    ((∀ t ∈ batch, fails t = false) →
        upsert_tenders_batch_tx fails pid now store batch
          = ((upsert_tenders_batch pid now store batch).1,
              Except.ok (upsert_tenders_batch pid now store batch).2))
    ∧ ((∃ t ∈ batch, fails t = true) →
        upsert_tenders_batch_tx fails pid now store batch
          = (store, Except.error "database error")) := by
  constructor
  · intro h
    unfold upsert_tenders_batch_tx
    rw [upsertBatchTxGo_ok fails pid now batch (store, 0, 0) h]
    rfl
  · intro h
    unfold upsert_tenders_batch_tx
    rw [upsertBatchTxGo_error fails pid now batch (store, 0, 0) h]

/-- A concrete tender record used by witnesses. -/
def sampleTender (h : String) : Tender :=
  { portalSource := "West Bengal", sNo := "1", ePublishedDate := "01-Jan-2025",
    closingDate := "08-Jan-2025", openingDate := "09-Jan-2025",
    title := "Supply of pipes", orgChain := "WB||PWD",
    detailsUrl := "/nicgep/app?x=1", workDescription := "",
    runDate := "2025-01-02", identityHash := h }

/-- Witness for C4: a failing middle record rolls the store back to its
pre-call state with the error surfaced, and a clean batch commits the full
application. -/
theorem upsert_tenders_batch_atomic_witness :
    upsert_tenders_batch_tx (fun t => t.identityHash == "h2") "WB" 5 []
        [sampleTender "h1", sampleTender "h2"]
      = ([], Except.error "database error")
    ∧ upsert_tenders_batch_tx (fun _ => false) "WB" 5 [] [sampleTender "h1"]
      = ((upsert_tenders_batch "WB" 5 [] [sampleTender "h1"]).1,
          Except.ok (upsert_tenders_batch "WB" 5 [] [sampleTender "h1"]).2) :=
  ⟨(upsert_tenders_batch_atomic (fun t => t.identityHash == "h2") "WB" 5 []
      [sampleTender "h1", sampleTender "h2"]).2
      ⟨sampleTender "h2", by decide, by decide⟩,
    (upsert_tenders_batch_atomic (fun _ => false) "WB" 5 [] [sampleTender "h1"]).1
      fun _ _ => rfl⟩

/- ======================= IDENTITY HASH (create_identity_hash) ============= -/

/- Embedding of hashlib.md5(key.encode()).hexdigest(): UTF-8 encoding, the MD5
compression function over 64-byte blocks, and lowercase hex output.  All words
are naturals kept below 2^32 by explicit reduction. -/

def pack (l : List Nat) : Nat := l.foldr (fun b acc => b + 256 * acc) 0

def toLE4 (w : Nat) : List Nat :=
  [w % 256, w / 256 % 256, w / 65536 % 256, w / 16777216 % 256]

def toLE8 (w : Nat) : List Nat :=
  toLE4 (w % 4294967296) ++ toLE4 (w / 4294967296)

def utf8Bytes (c : Char) : List Nat :=
  let n := c.toNat
  if n < 128 then [n]
  else if n < 2048 then [192 ||| (n >>> 6), 128 ||| (n &&& 63)]
  else if n < 65536 then
    [224 ||| (n >>> 12), 128 ||| ((n >>> 6) &&& 63), 128 ||| (n &&& 63)]
  else
    [240 ||| (n >>> 18), 128 ||| ((n >>> 12) &&& 63),
      128 ||| ((n >>> 6) &&& 63), 128 ||| (n &&& 63)]

def strBytes (s : String) : List Nat := (s.data.map utf8Bytes).flatten

def chunksOfAux (k : Nat) : Nat → List α → List (List α)
  | _, [] => []
  | 0, _ :: _ => []
  | fuel + 1, a :: l => (a :: l).take (k + 1) :: chunksOfAux k fuel (l.drop k)

def chunksOf (k : Nat) (l : List α) : List (List α) := chunksOfAux k l.length l

def md5_s : List Nat :=
  [7, 12, 17, 22, 7, 12, 17, 22, 7, 12, 17, 22, 7, 12, 17, 22,
   5, 9, 14, 20, 5, 9, 14, 20, 5, 9, 14, 20, 5, 9, 14, 20,
   4, 11, 16, 23, 4, 11, 16, 23, 4, 11, 16, 23, 4, 11, 16, 23,
   6, 10, 15, 21, 6, 10, 15, 21, 6, 10, 15, 21, 6, 10, 15, 21]

def md5_K : List Nat :=
  [3614090360, 3905402710, 606105819, 3250441966,
   4118548399, 1200080426, 2821735955, 4249261313,
   1770035416, 2336552879, 4294925233, 2304563134,
   1804603682, 4254626195, 2792965006, 1236535329,
   4129170786, 3225465664, 643717713, 3921069994,
   3593408605, 38016083, 3634488961, 3889429448,
   568446438, 3275163606, 4107603335, 1163531501,
   2850285829, 4243563512, 1735328473, 2368359562,
   4294588738, 2272392833, 1839030562, 4259657740,
   2763975236, 1272893353, 4139469664, 3200236656,
   681279174, 3936430074, 3572445317, 76029189,
   3654602809, 3873151461, 530742520, 3299628645,
   4096336452, 1126891415, 2878612391, 4237533241,
   1700485571, 2399980690, 4293915773, 2240044497,
   1873313359, 4264355552, 2734768916, 1309151649,
   4149444226, 3174756917, 718787259, 3951481745]

def rotl32 (x s : Nat) : Nat :=
  ((x <<< s) % 4294967296) ||| (x >>> (32 - s))

def not32 (x : Nat) : Nat := 4294967295 ^^^ x

def md5F (i b c d : Nat) : Nat × Nat :=
  if i < 16 then ((b &&& c) ||| (not32 b &&& d), i)
  else if i < 32 then ((d &&& b) ||| (not32 d &&& c), (5 * i + 1) % 16)
  else if i < 48 then (b ^^^ c ^^^ d, (3 * i + 5) % 16)
  else (c ^^^ (b ||| not32 d), (7 * i) % 16)

def md5Step (M : Nat → Nat) (st : Nat × Nat × Nat × Nat) (i : Nat) : Nat × Nat × Nat × Nat :=
  let fg := md5F i st.2.1 st.2.2.1 st.2.2.2
  let f := (fg.1 + st.1 + md5_K.getD i 0 + M fg.2) % 4294967296
  (st.2.2.2, (st.2.1 + rotl32 f (md5_s.getD i 0)) % 4294967296, st.2.1, st.2.2.1)

def md5Block (st : Nat × Nat × Nat × Nat) (block : List Nat) : Nat × Nat × Nat × Nat :=
  let M := fun j => pack ((block.drop (4 * j)).take 4)
  let r := (List.range 64).foldl (md5Step M) st
  ((st.1 + r.1) % 4294967296, (st.2.1 + r.2.1) % 4294967296,
    (st.2.2.1 + r.2.2.1) % 4294967296, (st.2.2.2 + r.2.2.2) % 4294967296)

def md5Pad (msg : List Nat) : List Nat :=
  let len := msg.length
  let zeros := (120 - ((len + 1) % 64)) % 64
  msg ++ [128] ++ List.replicate zeros 0 ++ toLE8 ((len * 8) % 18446744073709551616)

def md5Init : Nat × Nat × Nat × Nat := (1732584193, 4023233417, 2562383102, 271733878)

def md5DigestBytes (msg : List Nat) : List Nat :=
  let st := (chunksOf 63 (md5Pad msg)).foldl md5Block md5Init
  toLE4 st.1 ++ toLE4 st.2.1 ++ toLE4 st.2.2.1 ++ toLE4 st.2.2.2

def hexChar (n : Nat) : Char :=
  if n < 10 then Char.ofNat (48 + n) else Char.ofNat (87 + n)

def byteHex (b : Nat) : List Char := [hexChar (b / 16), hexChar (b % 16)]

def md5Hex (msg : List Nat) : String :=
  String.mk ((msg.map byteHex).flatten)

def hashlib_md5_hexdigest (s : String) : String := md5Hex (md5DigestBytes (strBytes s))

/-- The deduplication key string of create_identity_hash:
title_publisheddate_orgchain. -/
def identityKey (t : Tender) : String :=
  t.title ++ "_" ++ t.ePublishedDate ++ "_" ++ t.orgChain

/-- Embedding of IsolatedPortalScraper.create_identity_hash. -/
def create_identity_hash (t : Tender) : String :=
  hashlib_md5_hexdigest (identityKey t)

theorem pack_cons (b : Nat) (l : List Nat) : pack (b :: l) = b + 256 * pack l := rfl

theorem pack_lt (l : List Nat) (h : ∀ b ∈ l, b < 256) : pack l < 256 ^ l.length := by
  induction l with
  | nil => simp [pack]
  | cons b t ih =>
    have hb : b < 256 := h b (List.mem_cons_self b t)
    have ht : pack t < 256 ^ t.length := ih fun x hx => h x (List.mem_cons_of_mem b hx)
    rw [pack_cons, List.length_cons, pow_succ]
    omega

theorem pack_inj : ∀ l₁ l₂ : List Nat, l₁.length = l₂.length →
    (∀ b ∈ l₁, b < 256) → (∀ b ∈ l₂, b < 256) → pack l₁ = pack l₂ → l₁ = l₂ := by
  intro l₁
  induction l₁ with
  | nil =>
    intro l₂ hlen _ _ _
    cases l₂ with
    | nil => rfl
    | cons b t => simp at hlen
  | cons b₁ t₁ ih =>
    intro l₂ hlen hb₁ hb₂ hp
    cases l₂ with
    | nil => simp at hlen
    | cons b₂ t₂ =>
      rw [pack_cons, pack_cons] at hp
      have h₁ : b₁ < 256 := hb₁ b₁ (List.mem_cons_self b₁ t₁)
      have h₂ : b₂ < 256 := hb₂ b₂ (List.mem_cons_self b₂ t₂)
      have hb : b₁ = b₂ := by omega
      have ht : pack t₁ = pack t₂ := by omega
      have htl := ih t₂ (by simpa using hlen)
        (fun x hx => hb₁ x (List.mem_cons_of_mem b₁ hx))
        (fun x hx => hb₂ x (List.mem_cons_of_mem b₂ hx)) ht
      rw [hb, htl]

theorem toLE4_lt (w : Nat) : ∀ b ∈ toLE4 w, b < 256 := by
  intro b hb
  simp [toLE4] at hb
  rcases hb with rfl | rfl | rfl | rfl <;> exact Nat.mod_lt _ (by norm_num)

theorem md5DigestBytes_length (m : List Nat) : (md5DigestBytes m).length = 16 := by
  simp [md5DigestBytes, toLE4]

theorem md5DigestBytes_lt (m : List Nat) : ∀ b ∈ md5DigestBytes m, b < 256 := by
  intro b hb
  unfold md5DigestBytes at hb
  simp only [List.mem_append] at hb
  rcases hb with ((h | h) | h) | h <;> exact toLE4_lt _ b h

/-- The digest packed as one natural number below 2^128. -/
def digestNat (s : String) : Nat := pack (md5DigestBytes (strBytes s))

theorem digestNat_lt (s : String) : digestNat s < 2 ^ 128 := by
  have h := pack_lt (md5DigestBytes (strBytes s)) (md5DigestBytes_lt _)
  rw [md5DigestBytes_length] at h
  calc digestNat s < 256 ^ 16 := h
    _ = 2 ^ 128 := by norm_num

theorem hexdigest_congr (s₁ s₂ : String) (h : digestNat s₁ = digestNat s₂) :
    hashlib_md5_hexdigest s₁ = hashlib_md5_hexdigest s₂ := by
  have hbytes : md5DigestBytes (strBytes s₁) = md5DigestBytes (strBytes s₂) :=
    pack_inj _ _ (by rw [md5DigestBytes_length, md5DigestBytes_length])
      (md5DigestBytes_lt _) (md5DigestBytes_lt _) h
  unfold hashlib_md5_hexdigest
  rw [hbytes]

/-- A tender whose three identity fields are the given title and empty date
and organisation chain; every other field empty. -/
def tenderWithTitle (s : String) : Tender :=
  { portalSource := "", sNo := "", ePublishedDate := "", closingDate := "",
    openingDate := "", title := s, orgChain := "", detailsUrl := "",
    workDescription := "", runDate := "", identityHash := "" }

/-- Titles of unbounded length, pairwise distinct. -/
def titleOf (n : Nat) : String := String.mk (List.replicate n 'a')

/-- C6 counterexample: the claim that changing one of the three identity
fields always changes the hash is false: MD5 has only 2^128 possible digests,
so among the infinitely many single-field title variations two distinct
titles with identical date and organisation chain receive the same hash. -/
theorem create_identity_hash_not_title_injective :
    ¬ ∀ t₁ t₂ : Tender, t₁.ePublishedDate = t₂.ePublishedDate →
        t₁.orgChain = t₂.orgChain → t₁.title ≠ t₂.title →
        create_identity_hash t₁ ≠ create_identity_hash t₂ := by
  intro hinj
  obtain ⟨m, n, hmn, hfeq⟩ := Finite.exists_ne_map_eq_of_infinite
    (fun k : Nat =>
      (⟨digestNat (identityKey (tenderWithTitle (titleOf k))),
        digestNat_lt _⟩ : Fin (2 ^ 128)))
  simp only [Fin.mk.injEq] at hfeq
  have htitle : titleOf m ≠ titleOf n := by
    intro h
    apply hmn
    have hlen := congrArg (fun s => s.data.length) h
    simpa [titleOf] using hlen
  exact hinj (tenderWithTitle (titleOf m)) (tenderWithTitle (titleOf n)) rfl rfl htitle
    (hexdigest_congr _ _ hfeq)

/-- C6 (amended): create_identity_hash is a deterministic function of exactly
the title, published date and organisation chain (two tenders agreeing on
those three fields hash identically whatever their other fields), and
changing any single one of the three fields always changes the digested key
string; the hash itself then changes except for MD5 collisions of the keys,
which exist by counting. -/
theorem create_identity_hash_deterministic_key_sensitive (t₁ t₂ : Tender) :
    (t₁.title = t₂.title → t₁.ePublishedDate = t₂.ePublishedDate →
      t₁.orgChain = t₂.orgChain → create_identity_hash t₁ = create_identity_hash t₂)
    ∧ (t₁.ePublishedDate = t₂.ePublishedDate → t₁.orgChain = t₂.orgChain →
        t₁.title ≠ t₂.title → identityKey t₁ ≠ identityKey t₂)
    ∧ (t₁.title = t₂.title → t₁.orgChain = t₂.orgChain →
        t₁.ePublishedDate ≠ t₂.ePublishedDate → identityKey t₁ ≠ identityKey t₂)
    ∧ (t₁.title = t₂.title → t₁.ePublishedDate = t₂.ePublishedDate →
        t₁.orgChain ≠ t₂.orgChain → identityKey t₁ ≠ identityKey t₂) := by
  refine ⟨?_, ?_, ?_, ?_⟩
  · intro h₁ h₂ h₃
    unfold create_identity_hash identityKey
    rw [h₁, h₂, h₃]
  · intro he ho hne hk
    apply hne
    have hd := congrArg String.data hk
    unfold identityKey at hd
    simp only [String.data_append, List.append_assoc] at hd
    rw [he, ho] at hd
    exact String.ext (List.append_cancel_right hd)
  · intro ht ho hne hk
    apply hne
    have hd := congrArg String.data hk
    unfold identityKey at hd
    simp only [String.data_append, List.append_assoc] at hd
    rw [ht, ho] at hd
    have hd₂ := List.append_cancel_left hd
    have hd₃ := List.append_cancel_left hd₂
    exact String.ext (List.append_cancel_right hd₃)
  · intro ht he hne hk
    apply hne
    have hd := congrArg String.data hk
    unfold identityKey at hd
    simp only [String.data_append, List.append_assoc] at hd
    rw [ht, he] at hd
    have hd₂ := List.append_cancel_left hd
    have hd₃ := List.append_cancel_left hd₂
    have hd₄ := List.append_cancel_left hd₃
    exact String.ext (List.append_cancel_left hd₄)

/-- Witness for C6: agreeing identity fields give equal hashes whatever the
other fields; distinct titles give distinct keys. -/
theorem create_identity_hash_deterministic_key_sensitive_witness :
    create_identity_hash (tenderWithTitle "Supply of pipes")
      = create_identity_hash
          { tenderWithTitle "Supply of pipes" with sNo := "99", detailsUrl := "/x" }
    ∧ identityKey (tenderWithTitle "alpha") ≠ identityKey (tenderWithTitle "beta") :=
  ⟨(create_identity_hash_deterministic_key_sensitive _ _).1 rfl rfl rfl,
    (create_identity_hash_deterministic_key_sensitive _ _).2.1 rfl rfl (by decide)⟩

/- ======================= STALE-ELEMENT RETRY (C9) ========================= -/

/-- The source constant max_stale_retries = 3. -/
def max_stale_retries : Nat := 3

/-- The source constant stale_retry_delay = 2 seconds. -/
def stale_retry_delay : Nat := 2

/-- The classification of a caught exception message performed by
get_next_page_link_with_retry: stale in str(e).lower() or detached in it. -/
def staleClass (msg : String) : Bool :=
  containsSubstr (str_lower msg) "stale" || containsSubstr (str_lower msg) "detached"

deriving instance DecidableEq for Except

/-- Outcome record of the embedded retry loop: what the caller observes (an
exception would be a .error result), the number of attempts consumed, and the
sleeps taken between attempts. -/
structure RetryResult where
  result : Except String (Option String)
  attempts : Nat
  sleeps : List Nat
deriving DecidableEq

/-- The for-loop of get_next_page_link_with_retry.  attempt k is the outcome
of the k-th execution of the try block (ok none: availability check failed or
link/href missing; ok (some url): next url computed; error m: exception
raised).  A stale-class error sleeps stale_retry_delay and retries while
attempts remain; any other error, or exhaustion, returns None. -/
def getNextPageLinkGo (attempt : Nat → Except String (Option String)) :
    Nat → Nat → List Nat → RetryResult
  | k, 0, sleeps => { result := .ok none, attempts := k - 1, sleeps := sleeps }
  | k, remaining + 1, sleeps =>
    match attempt k with
    | .ok v => { result := .ok v, attempts := k, sleeps := sleeps }
    | .error m =>
      if staleClass m then
        if k < max_stale_retries then
          getNextPageLinkGo attempt (k + 1) remaining (sleeps ++ [stale_retry_delay])
        else
          { result := .ok none, attempts := k, sleeps := sleeps }
      else
        { result := .ok none, attempts := k, sleeps := sleeps }

/-- Embedding of IsolatedPortalScraper.get_next_page_link_with_retry. -/
def get_next_page_link_with_retry (attempt : Nat → Except String (Option String)) :
    RetryResult :=
  getNextPageLinkGo attempt 1 max_stale_retries []

theorem getNextPageLinkGo_step (attempt : Nat → Except String (Option String))
    (k remaining : Nat) (sleeps : List Nat) :
    getNextPageLinkGo attempt k (remaining + 1) sleeps
      = match attempt k with
        | .ok v => { result := .ok v, attempts := k, sleeps := sleeps }
        | .error m =>
          if staleClass m then
            if k < max_stale_retries then
              getNextPageLinkGo attempt (k + 1) remaining (sleeps ++ [stale_retry_delay])
            else
              { result := .ok none, attempts := k, sleeps := sleeps }
          else
            { result := .ok none, attempts := k, sleeps := sleeps } := rfl

/-- A navigation timeout, not a stale-element error. -/
def timeoutAttempt : Nat → Except String (Option String) :=
  fun _ => .error "Page.goto: Timeout 45000ms exceeded."

/-- C9 counterexample: on a non-stale error the function does not propagate
the exception: the very first attempt swallows it and returns None (treated
by run_phase1 as end of pagination), with no retry and no sleep. -/
theorem get_next_page_link_nonstale_swallowed :
    get_next_page_link_with_retry timeoutAttempt
      = { result := .ok none, attempts := 1, sleeps := [] } := by decide

/-- C9 (amended): only stale/detached-class errors are retried, up to exactly
3 attempts with a fixed 2-second sleep between consecutive attempts;
exceptions never propagate out of the function: a non-stale error (and also
stale-retry exhaustion) makes it return None, which the caller treats as end
of pagination. -/
theorem get_next_page_link_retry_discipline (attempt : Nat → Except String (Option String)) :
    (1 ≤ (get_next_page_link_with_retry attempt).attempts
      ∧ (get_next_page_link_with_retry attempt).attempts ≤ max_stale_retries)
    ∧ (∀ k, 1 ≤ k → k < (get_next_page_link_with_retry attempt).attempts →
        ∃ m, attempt k = .error m ∧ staleClass m = true)
    ∧ (get_next_page_link_with_retry attempt).sleeps
        = List.replicate ((get_next_page_link_with_retry attempt).attempts - 1) stale_retry_delay
    ∧ (∀ e, (get_next_page_link_with_retry attempt).result ≠ .error e)
    ∧ (∀ v, attempt (get_next_page_link_with_retry attempt).attempts = .ok v →
        (get_next_page_link_with_retry attempt).result = .ok v)
    ∧ (∀ m, attempt (get_next_page_link_with_retry attempt).attempts = .error m →
        (get_next_page_link_with_retry attempt).result = .ok none) := by
  have e0 : get_next_page_link_with_retry attempt = getNextPageLinkGo attempt 1 (2 + 1) [] := rfl
  cases h1 : attempt 1 with
  | ok v₁ =>
    have hr : get_next_page_link_with_retry attempt = ⟨.ok v₁, 1, []⟩ := by
      rw [e0, getNextPageLinkGo_step, h1]
    rw [hr]
    dsimp only
    refine ⟨⟨le_refl 1, by norm_num [max_stale_retries]⟩, ?_, rfl, ?_, ?_, ?_⟩
    · intro k hk1 hk2
      omega
    · intro e he
      cases he
    · intro v hv
      rw [h1] at hv
      cases hv
      rfl
    · intro m hm
      rw [h1] at hm
      cases hm
  | error m₁ =>
    by_cases hs1 : staleClass m₁
    · have e1 : get_next_page_link_with_retry attempt
          = getNextPageLinkGo attempt 2 (1 + 1) [2] := by
        rw [e0, getNextPageLinkGo_step, h1]
        simp [hs1, max_stale_retries, stale_retry_delay]
      cases h2 : attempt 2 with
      | ok v₂ =>
        have hr : get_next_page_link_with_retry attempt = ⟨.ok v₂, 2, [2]⟩ := by
          rw [e1, getNextPageLinkGo_step, h2]
        rw [hr]
        dsimp only
        refine ⟨⟨by norm_num, by norm_num [max_stale_retries]⟩, ?_, rfl, ?_, ?_, ?_⟩
        · intro k hk1 hk2
          have : k = 1 := by omega
          subst this
          exact ⟨m₁, h1, hs1⟩
        · intro e he
          cases he
        · intro v hv
          rw [h2] at hv
          cases hv
          rfl
        · intro m hm
          rw [h2] at hm
          cases hm
      | error m₂ =>
        by_cases hs2 : staleClass m₂
        · have e2 : get_next_page_link_with_retry attempt
              = getNextPageLinkGo attempt 3 (0 + 1) [2, 2] := by
            rw [e1, getNextPageLinkGo_step, h2]
            simp [hs2, max_stale_retries, stale_retry_delay]
          cases h3 : attempt 3 with
          | ok v₃ =>
            have hr : get_next_page_link_with_retry attempt = ⟨.ok v₃, 3, [2, 2]⟩ := by
              rw [e2, getNextPageLinkGo_step, h3]
            rw [hr]
            dsimp only
            refine ⟨⟨by norm_num, by norm_num [max_stale_retries]⟩, ?_, rfl, ?_, ?_, ?_⟩
            · intro k hk1 hk2
              have : k = 1 ∨ k = 2 := by omega
              rcases this with rfl | rfl
              · exact ⟨m₁, h1, hs1⟩
              · exact ⟨m₂, h2, hs2⟩
            · intro e he
              cases he
            · intro v hv
              rw [h3] at hv
              cases hv
              rfl
            · intro m hm
              rw [h3] at hm
              cases hm
          | error m₃ =>
            have hr : get_next_page_link_with_retry attempt = ⟨.ok none, 3, [2, 2]⟩ := by
              rw [e2, getNextPageLinkGo_step, h3]
              by_cases hs3 : staleClass m₃ <;> simp [hs3, max_stale_retries]
            rw [hr]
            dsimp only
            refine ⟨⟨by norm_num, by norm_num [max_stale_retries]⟩, ?_, rfl, ?_, ?_, ?_⟩
            · intro k hk1 hk2
              have : k = 1 ∨ k = 2 := by omega
              rcases this with rfl | rfl
              · exact ⟨m₁, h1, hs1⟩
              · exact ⟨m₂, h2, hs2⟩
            · intro e he
              cases he
            · intro v hv
              rw [h3] at hv
              cases hv
            · intro m hm
              rfl
        · have hr : get_next_page_link_with_retry attempt = ⟨.ok none, 2, [2]⟩ := by
            rw [e1, getNextPageLinkGo_step, h2]
            simp [hs2]
          rw [hr]
          dsimp only
          refine ⟨⟨by norm_num, by norm_num [max_stale_retries]⟩, ?_, rfl, ?_, ?_, ?_⟩
          · intro k hk1 hk2
            have : k = 1 := by omega
            subst this
            exact ⟨m₁, h1, hs1⟩
          · intro e he
            cases he
          · intro v hv
            rw [h2] at hv
            cases hv
          · intro m hm
            rfl
    · have hr : get_next_page_link_with_retry attempt = ⟨.ok none, 1, []⟩ := by
        rw [e0, getNextPageLinkGo_step, h1]
        simp [hs1]
      rw [hr]
      dsimp only
      refine ⟨⟨le_refl 1, by norm_num [max_stale_retries]⟩, ?_, rfl, ?_, ?_, ?_⟩
      · intro k hk1 hk2
        omega
      · intro e he
        cases he
      · intro v hv
        rw [h1] at hv
        cases hv
      · intro m hm
        rfl

/-- An oracle raising a stale-element error on the first attempt and
succeeding on the second. -/
def staleOnceAttempt : Nat → Except String (Option String) :=
  fun k =>
    if k = 1 then .error "Element is not attached to the DOM (stale element reference)"
    else .ok (some "/nicgep/app?page=3")

/-- Witness for C9: on a concrete oracle the stale first error is retried and
the second attempt's value is returned. -/
theorem get_next_page_link_retry_discipline_witness :
    (∃ m, staleOnceAttempt 1 = .error m ∧ staleClass m = true)
    ∧ (get_next_page_link_with_retry staleOnceAttempt).result = .ok (some "/nicgep/app?page=3") :=
  ⟨(get_next_page_link_retry_discipline staleOnceAttempt).2.1 1 (by decide) (by decide),
    (get_next_page_link_retry_discipline staleOnceAttempt).2.2.2.2.1
      (some "/nicgep/app?page=3") (by decide)⟩

/- ======================= AI CLASSIFIER (check_titles, run_ai_filtering) === -/

theorem chunksOfAux_flatten (k : Nat) :
    ∀ (fuel : Nat) (l : List α), l.length ≤ fuel → (chunksOfAux k fuel l).flatten = l := by
  intro fuel
  induction fuel with
  | zero =>
    intro l hl
    cases l with
    | nil => rfl
    | cons a l' => simp at hl
  | succ fuel ih =>
    intro l hl
    cases l with
    | nil => rfl
    | cons a l' =>
      have hstep : chunksOfAux k (fuel + 1) (a :: l')
          = (a :: l').take (k + 1) :: chunksOfAux k fuel (l'.drop k) := rfl
      rw [hstep, List.flatten_cons]
      have hd : (l'.drop k).length ≤ fuel := by
        rw [List.length_drop]
        have : l'.length ≤ fuel := by simpa using Nat.le_of_succ_le_succ hl
        omega
      rw [ih (l'.drop k) hd, List.take_succ_cons, List.cons_append, List.take_append_drop]

theorem chunksOf_flatten (k : Nat) (l : List α) : (chunksOf k l).flatten = l :=
  chunksOfAux_flatten k l.length l (le_refl _)

/-- The per-batch classifier cache: title to boolean, a Python dict modelled
as an association list where an assignment prepends (first match wins). -/
def cacheInsert (cache : List (String × Bool)) (key : String) (val : Bool) :
    List (String × Bool) :=
  (key, val) :: cache

/-- The parse of one decision of the service response: results.get(str(i),
"meaningful") == "meaningful". -/
def parseDecision (resp : Nat → Option String) (i : Nat) : Bool :=
  ((resp i).getD "meaningful") == "meaningful"

/-- Embedding of IsolatedAIChecker.check_titles.  The service is an oracle
from the submitted (uncached) titles to either a parsed JSON response indexed
1-based, or a raised exception.  Returns the result mapping given back to the
caller and the cache after the call.  The result lookups use getD true only
on titles that are necessarily cached, mirroring cache.get(t, True). -/
def check_titles (svc : List String → Except Unit (Nat → Option String))
    (cache : List (String × Bool)) (titles : List String) :
    List (String × Bool) × List (String × Bool) :=
  let uncached := titles.filter fun t => (cache.lookup t).isNone
  if uncached.isEmpty then
    (titles.map fun t => (t, (cache.lookup t).getD true), cache)
  else
    match svc uncached with
    | .ok resp =>
      let cache' := (uncached.enumFrom 1).foldl
        (fun c p => cacheInsert c p.2 (parseDecision resp p.1)) cache
      (titles.map fun t => (t, (cache'.lookup t).getD true), cache')
    | .error _ =>
      let cache' := uncached.foldl (fun c t => cacheInsert c t true) cache
      (titles.map fun t => (t, (cache'.lookup t).getD true), cache')

/-- One selected row of get_tenders_for_ai_filtering: identity hash and
title. -/
structure SelItem where
  hash : String
  title : String
deriving DecidableEq

/-- Embedding of get_tenders_for_ai_filtering: rows of this portal with
ai_filtered = 0. -/
def get_tenders_for_ai_filtering (pid : String) (db : List Row) : List SelItem :=
  (db.filter fun r => r.portal_id == pid && r.ai_filtered == 0).map
    fun r => { hash := r.identity_hash, title := r.title }

/-- Embedding of mark_ai_filtered: set ai_filtered to 1 (keep) or -1
(reject) and bump updated_at on the row of this key. -/
def mark_ai_filtered (pid : String) (now : Nat) (h : String) (keep : Bool)
    (db : List Row) : List Row :=
  db.map fun r =>
    if rowMatches pid h r then
      { r with ai_filtered := if keep then 1 else -1, updated_at := now }
    else r

/-- The inner marking loop of run_ai_filtering over one batch:
is_meaningful = results.get(title, False); keep = not is_meaningful. -/
def markBatch (pid : String) (now : Nat) (results : List (String × Bool))
    (batch : List SelItem) (db : List Row) : List Row :=
  batch.foldl
    (fun db s => mark_ai_filtered pid now s.hash (!((results.lookup s.title).getD false)) db)
    db

/-- The source constant batch_size = 50. -/
def ai_batch_size : Nat := 50

/-- Embedding of run_ai_filtering: select the unclassified rows of the
portal, split them into batches of 50, classify each batch through the cache
and the service, write every decision back, and finally set the
ai_filtering_complete flag; an empty selection returns early without setting
the flag.  Returns (table, cache, flag value written). -/
def run_ai_filtering (svc : List String → Except Unit (Nat → Option String))
    (pid : String) (now : Nat) (db : List Row) (cache : List (String × Bool)) :
    List Row × List (String × Bool) × Bool :=
  let sel := get_tenders_for_ai_filtering pid db
  if sel.isEmpty then (db, cache, false)
  else
    let fin := (chunksOf (ai_batch_size - 1) sel).foldl
      (fun acc batch =>
        let cr := check_titles svc acc.2 (batch.map SelItem.title)
        (markBatch pid now cr.1 batch acc.1, cr.2))
      (db, cache)
    (fin.1, fin.2, true)

/-- The SQL filter of get_tenders_for_phase2: this portal, ai_filtered 1 or
0, phase2_status pending or failed, details_url non-empty. -/
def phase2Pred (pid : String) (r : Row) : Bool :=
  r.portal_id == pid && (r.ai_filtered == 1 || r.ai_filtered == 0)
    && (r.phase2_status == "pending" || r.phase2_status == "failed")
    && !(r.details_url == "")

/-- Embedding of get_tenders_for_phase2 (the source projects each selected
row to id/hash/url/s_no; the rows themselves are kept here). -/
def get_tenders_for_phase2 (pid : String) (db : List Row) : List Row :=
  db.filter (phase2Pred pid)

/-- The gate around the Classify phase in run(): skipped entirely when no
classifier is configured or when the ai_filtering_complete flag is set. -/
def runClassifyPhase (checker : Option (List String → Except Unit (Nat → Option String)))
    (pid : String) (now : Nat) (db : List Row) (cache : List (String × Bool))
    (flagDone : Bool) : List Row × List (String × Bool) × Bool :=
  match checker with
  | none => (db, cache, flagDone)
  | some svc =>
    if flagDone then (db, cache, flagDone)
    else
      let r := run_ai_filtering svc pid now db cache
      (r.1, r.2.1, flagDone || r.2.2)

/-- A marked row is never left unclassified: the write is 1 or -1. -/
theorem mark_ai_filtered_inv (pid : String) (now : Nat) (h : String) (keep : Bool)
    (db : List Row) :
    ∀ r' ∈ mark_ai_filtered pid now h keep db, r'.portal_id = pid → r'.ai_filtered = 0 →
      ∃ r ∈ db, r.portal_id = pid ∧ r.ai_filtered = 0
        ∧ r.identity_hash = r'.identity_hash ∧ r'.identity_hash ≠ h := by
  intro r' hr'
  unfold mark_ai_filtered at hr'
  rcases List.mem_map.1 hr' with ⟨r, hr, rfl⟩
  by_cases hm : rowMatches pid h r
  · rw [if_pos hm]
    intro _ hz
    by_cases hk : keep <;> simp [hk] at hz
  · rw [if_neg hm]
    intro hp hz
    refine ⟨r, hr, hp, hz, rfl, ?_⟩
    intro hh
    apply hm
    unfold rowMatches
    simp [hp, hh]

/-- Obligation-transfer across one batch of marks: every still-unclassified
row of this portal has its hash among the not-yet-processed ones. -/
theorem markBatch_obligation (pid : String) (now : Nat) :
    ∀ (batch : List SelItem) (results : List (String × Bool)) (rest : List String)
      (db : List Row),
      (∀ r ∈ db, r.portal_id = pid → r.ai_filtered = 0 →
        r.identity_hash ∈ batch.map SelItem.hash ++ rest) →
      ∀ r ∈ markBatch pid now results batch db, r.portal_id = pid → r.ai_filtered = 0 →
        r.identity_hash ∈ rest := by
  intro batch
  induction batch with
  | nil =>
    intro results rest db hP r hr hp hz
    simpa using hP r hr hp hz
  | cons s ss ih =>
    intro results rest db hP r hr hp hz
    have hstep : markBatch pid now results (s :: ss) db
        = markBatch pid now results ss
            (mark_ai_filtered pid now s.hash (!((results.lookup s.title).getD false)) db) := rfl
    rw [hstep] at hr
    refine ih results rest _ ?_ r hr hp hz
    intro r' hr' hp' hz'
    obtain ⟨r₀, hr₀, hp₀, hz₀, hhash, hne⟩ :=
      mark_ai_filtered_inv pid now s.hash _ db r' hr' hp' hz'
    have := hP r₀ hr₀ hp₀ hz₀
    rw [hhash] at this
    simp only [List.map_cons, List.cons_append, List.mem_cons] at this
    rcases this with heq | hmem
    · exact absurd heq hne
    · exact hmem

/-- After folding all batches, no row of the portal is left unclassified,
provided every unclassified hash appears in some batch. -/
theorem chunksFold_classifies (svc : List String → Except Unit (Nat → Option String))
    (pid : String) (now : Nat) :
    ∀ (chunks : List (List SelItem)) (db : List Row) (cache : List (String × Bool)),
      (∀ r ∈ db, r.portal_id = pid → r.ai_filtered = 0 →
        r.identity_hash ∈ (chunks.flatten.map SelItem.hash)) →
      ∀ r ∈ (chunks.foldl
          (fun acc batch =>
            let cr := check_titles svc acc.2 (batch.map SelItem.title)
            (markBatch pid now cr.1 batch acc.1, cr.2))
          (db, cache)).1,
        r.portal_id = pid → r.ai_filtered ≠ 0 := by
  intro chunks
  induction chunks with
  | nil =>
    intro db cache hP r hr hp hz
    simpa using hP r hr hp hz
  | cons c cs ih =>
    intro db cache hP r hr hp
    rw [List.foldl_cons] at hr
    refine ih _ _ ?_ r hr hp
    intro r' hr' hp' hz'
    refine markBatch_obligation pid now c _ (cs.flatten.map SelItem.hash) db ?_ r' hr' hp' hz'
    intro r₀ hr₀ hp₀ hz₀
    have := hP r₀ hr₀ hp₀ hz₀
    simpa [List.map_append] using this

/-- After run_ai_filtering every row of the portal is classified. -/
theorem run_ai_filtering_classifies_all (svc : List String → Except Unit (Nat → Option String))
    (pid : String) (now : Nat) (db : List Row) (cache : List (String × Bool)) :
    ∀ r ∈ (run_ai_filtering svc pid now db cache).1, r.portal_id = pid →
      r.ai_filtered ≠ 0 := by
  intro r hr hp
  unfold run_ai_filtering at hr
  by_cases hsel : (get_tenders_for_ai_filtering pid db).isEmpty
  · simp only [hsel, if_true] at hr
    intro hz
    have hfil : (db.filter fun r => r.portal_id == pid && r.ai_filtered == 0) = [] := by
      have := List.isEmpty_iff.1 hsel
      unfold get_tenders_for_ai_filtering at this
      exact List.map_eq_nil_iff.1 this
    have hmem : r ∈ db.filter fun r => r.portal_id == pid && r.ai_filtered == 0 :=
      List.mem_filter.2 ⟨hr, by simp [hp, hz]⟩
    rw [hfil] at hmem
    cases hmem
  · simp only [hsel, if_false] at hr
    refine chunksFold_classifies svc pid now (chunksOf (ai_batch_size - 1)
      (get_tenders_for_ai_filtering pid db)) db cache ?_ r hr hp
    intro r₀ hr₀ hp₀ hz₀
    rw [chunksOf_flatten]
    have hmem : r₀ ∈ db.filter fun r => r.portal_id == pid && r.ai_filtered == 0 :=
      List.mem_filter.2 ⟨hr₀, by simp [hp₀, hz₀]⟩
    unfold get_tenders_for_ai_filtering
    have : (⟨r₀.identity_hash, r₀.title⟩ : SelItem)
        ∈ (db.filter fun r => r.portal_id == pid && r.ai_filtered == 0).map
            fun r => ({ hash := r.identity_hash, title := r.title } : SelItem) :=
      List.mem_map.2 ⟨r₀, hmem, rfl⟩
    exact List.mem_map.2 ⟨⟨r₀.identity_hash, r₀.title⟩, this, rfl⟩

/-- C8: with a classifier configured, every record the Enrich phase selects
through get_tenders_for_phase2 after the Classify phase is no longer
unclassified (the flag hypothesis states the invariant the checkpoint
discipline maintains: ai_filtering_complete is only ever set after a full
marking pass); with no classifier configured the Classify phase is the
identity on the store and the cache, not an error. -/
theorem classify_before_enrich (svc : List String → Except Unit (Nat → Option String))
    (pid : String) (now : Nat) (db : List Row) (cache : List (String × Bool))
    (flagDone : Bool)
    (hflag : flagDone = true → ∀ r ∈ db, r.portal_id = pid → r.ai_filtered ≠ 0) :
    (∀ r ∈ get_tenders_for_phase2 pid
        (runClassifyPhase (some svc) pid now db cache flagDone).1,
      r.ai_filtered ≠ 0)
    ∧ runClassifyPhase none pid now db cache flagDone = (db, cache, flagDone) := by
  constructor
  · intro r hr
    unfold runClassifyPhase at hr
    dsimp only at hr
    by_cases hf : flagDone
    · rw [if_pos hf] at hr
      unfold get_tenders_for_phase2 at hr
      have hmem := List.mem_filter.1 hr
      have hp : r.portal_id = pid := by
        have := hmem.2
        unfold phase2Pred at this
        simp at this
        exact this.1.1.1
      exact hflag hf r hmem.1 hp
    · rw [if_neg hf] at hr
      unfold get_tenders_for_phase2 at hr
      have hmem := List.mem_filter.1 hr
      have hp : r.portal_id = pid := by
        have := hmem.2
        unfold phase2Pred at this
        simp at this
        exact this.1.1.1
      exact run_ai_filtering_classifies_all svc pid now db cache r hmem.1 hp
  · rfl

/-- The service of the C8 witness: classifies everything unmeaningful. -/
def svcAllUnmeaningful : List String → Except Unit (Nat → Option String) :=
  fun _ => .ok fun _ => some "unmeaningful"

/-- An unclassified pending row with a detail URL. -/
def rowPending : Row :=
  { portal_id := "WB", identity_hash := "h1", portal_source := "West Bengal",
    s_no := "1", e_published_date := "01-Jan-2025", closing_date := "08-Jan-2025",
    opening_date := "09-Jan-2025", title := "Supply of pipes", org_chain := "WB||PWD",
    details_url := "/nicgep/app?x=1", work_description := "", run_date := "2025-01-02",
    phase1_status := "extracted", phase2_status := "pending", ai_filtered := 0,
    created_at := 3, updated_at := 3 }

/-- Witness for C8: the concrete row selected by Enrich after the Classify
phase carries a classification, and the phase with no classifier is a no-op. -/
theorem classify_before_enrich_witness :
    ({ rowPending with ai_filtered := 1, updated_at := 9 } : Row).ai_filtered ≠ 0
    ∧ runClassifyPhase none "WB" 9 [rowPending] [] false = ([rowPending], [], false) :=
  ⟨(classify_before_enrich svcAllUnmeaningful "WB" 9 [rowPending] [] false
      (fun h => nomatch h)).1
      { rowPending with ai_filtered := 1, updated_at := 9 } (by decide),
    (classify_before_enrich svcAllUnmeaningful "WB" 9 [rowPending] [] false
      (fun h => nomatch h)).2⟩

theorem lookup_cons_self (cache : List (String × Bool)) (k : String) (v : Bool) :
    ((k, v) :: cache).lookup k = some v := by
  simp [List.lookup]

theorem lookup_cons_ne (cache : List (String × Bool)) (k t : String) (v : Bool)
    (h : t ≠ k) : ((k, v) :: cache).lookup t = cache.lookup t := by
  simp [List.lookup, show (t == k) = false from by simp [h]]

theorem lookup_foldl_insert_true (l : List String) :
    ∀ (cache : List (String × Bool)) (t : String),
      (t ∈ l ∨ cache.lookup t = some true) →
      ((l.foldl (fun c u => cacheInsert c u true) cache).lookup t) = some true := by
  induction l with
  | nil =>
    intro cache t h
    rcases h with h | h
    · cases h
    · exact h
  | cons u us ih =>
    intro cache t h
    rw [List.foldl_cons]
    by_cases ht : t = u
    · apply ih
      right
      subst ht
      exact lookup_cons_self cache t true
    · rcases h with h | h
      · rcases List.mem_cons.1 h with rfl | hmem
        · exact absurd rfl ht
        · exact ih _ t (Or.inl hmem)
      · apply ih
        right
        rw [show cacheInsert cache u true = (u, true) :: cache from rfl,
          lookup_cons_ne cache u t true ht]
        exact h

theorem lookup_foldl_insert_preserve (l : List α) (key : α → String) (val : α → Bool) :
    ∀ (cache : List (String × Bool)) (t : String) (b : Bool),
      cache.lookup t = some b → (∀ x ∈ l, key x ≠ t) →
      ((l.foldl (fun c x => cacheInsert c (key x) (val x)) cache).lookup t) = some b := by
  induction l with
  | nil =>
    intro cache t b h _
    exact h
  | cons x xs ih =>
    intro cache t b h hk
    rw [List.foldl_cons]
    apply ih
    · rw [show cacheInsert cache (key x) (val x) = (key x, val x) :: cache from rfl,
        lookup_cons_ne cache (key x) t (val x)
          (Ne.symm (hk x (List.mem_cons_self x xs)))]
      exact h
    · intro y hy
      exact hk y (List.mem_cons_of_mem x hy)

theorem lookup_map_self (g : String → Bool) (titles : List String) :
    ∀ t ∈ titles, (titles.map fun u => (u, g u)).lookup t = some (g t) := by
  induction titles with
  | nil => intro t ht; cases ht
  | cons u us ih =>
    intro t ht
    rw [List.map_cons]
    by_cases htu : t = u
    · subst htu
      exact lookup_cons_self _ t (g t)
    · rw [lookup_cons_ne _ u t (g u) htu]
      rcases List.mem_cons.1 ht with rfl | hmem
      · exact absurd rfl htu
      · exact ih t hmem

/-- Existing cache entries survive every check_titles call unchanged. -/
theorem check_titles_cache_preserve (svc : List String → Except Unit (Nat → Option String))
    (cache : List (String × Bool)) (titles : List String) (t : String) (b : Bool)
    (h : cache.lookup t = some b) :
    ((check_titles svc cache titles).2).lookup t = some b := by
  unfold check_titles
  dsimp only
  have hnott : ∀ u ∈ titles.filter (fun u => (cache.lookup u).isNone), u ≠ t := by
    intro u hu hut
    subst hut
    have hn := (List.mem_filter.1 hu).2
    rw [h] at hn
    simp at hn
  by_cases he : (titles.filter fun u => (cache.lookup u).isNone).isEmpty
  · rw [if_pos he]
    exact h
  · rw [if_neg he]
    cases hsvc : svc (titles.filter fun u => (cache.lookup u).isNone) with
    | ok resp =>
      dsimp only
      refine lookup_foldl_insert_preserve
        ((titles.filter fun u => (cache.lookup u).isNone).enumFrom 1)
        (fun p => p.2) (fun p => parseDecision resp p.1) cache t b h ?_
      intro p hp
      obtain ⟨i, x⟩ := p
      have hm := List.mem_enumFrom hp
      have hx : x ∈ titles.filter fun u => (cache.lookup u).isNone := by
        rw [hm.2.2]
        exact List.getElem_mem _
      exact hnott x hx
    | error e =>
      dsimp only
      exact lookup_foldl_insert_preserve _ (fun u => u) (fun _ => true) cache t b h hnott

/-- On a failed service call every previously uncached title of the call
receives the fallback value True, both in the returned mapping and in the
cache. -/
theorem check_titles_failure_results (svc : List String → Except Unit (Nat → Option String))
    (cache : List (String × Bool)) (titles : List String)
    (herr : svc (titles.filter fun u => (cache.lookup u).isNone) = .error ())
    (hne : ¬(titles.filter fun u => (cache.lookup u).isNone).isEmpty = true) :
    ∀ t ∈ titles, cache.lookup t = none →
      (check_titles svc cache titles).1.lookup t = some true
      ∧ (check_titles svc cache titles).2.lookup t = some true := by
  intro t ht hn
  unfold check_titles
  dsimp only
  rw [if_neg hne, herr]
  dsimp only
  have hcache : ((titles.filter fun u => (cache.lookup u).isNone).foldl
      (fun c u => cacheInsert c u true) cache).lookup t = some true := by
    apply lookup_foldl_insert_true
    left
    exact List.mem_filter.2 ⟨ht, by simp [hn]⟩
  refine ⟨?_, hcache⟩
  have hres := lookup_map_self
    (fun u => ((((titles.filter fun u => (cache.lookup u).isNone).foldl
      (fun c u => cacheInsert c u true) cache).lookup u).getD true)) titles t ht
  rw [hres]
  dsimp only
  rw [hcache]
  rfl

theorem markBatch_eq_map (pid : String) (now : Nat) (results : List (String × Bool)) :
    ∀ (batch : List SelItem) (db : List Row),
      markBatch pid now results batch db
        = db.map fun r =>
            batch.foldl
              (fun r s =>
                if rowMatches pid s.hash r then
                  { r with
                    ai_filtered := if !((results.lookup s.title).getD false) then 1 else -1,
                    updated_at := now }
                else r) r := by
  intro batch
  induction batch with
  | nil =>
    intro db
    have h0 : ∀ r ∈ db,
        (List.foldl (fun (r : Row) (s : SelItem) =>
          if rowMatches pid s.hash r then
            { r with
              ai_filtered := if !((results.lookup s.title).getD false) then 1 else -1,
              updated_at := now }
          else r) r []) = id r := fun r _ => rfl
    rw [List.map_congr_left h0, List.map_id]
    rfl
  | cons s ss ih =>
    intro db
    have hstep : markBatch pid now results (s :: ss) db
        = markBatch pid now results ss
            (mark_ai_filtered pid now s.hash (!((results.lookup s.title).getD false)) db) := rfl
    rw [hstep, ih]
    rw [show mark_ai_filtered pid now s.hash (!((results.lookup s.title).getD false)) db
        = db.map (fun r =>
            if rowMatches pid s.hash r then
              { r with
                ai_filtered := if !((results.lookup s.title).getD false) then 1 else -1,
                updated_at := now }
            else r) from rfl]
    rw [List.map_map]
    rfl

theorem foldMark_skip (pid : String) (now : Nat) (results : List (String × Bool)) :
    ∀ (ss : List SelItem) (r : Row),
      (∀ s' ∈ ss, rowMatches pid s'.hash r = false) →
      (ss.foldl
        (fun r s =>
          if rowMatches pid s.hash r then
            { r with
              ai_filtered := if !((results.lookup s.title).getD false) then 1 else -1,
              updated_at := now }
          else r) r) = r := by
  intro ss
  induction ss with
  | nil => intro r _; rfl
  | cons s' ss ih =>
    intro r h
    rw [List.foldl_cons, if_neg (by simp [h s' (List.mem_cons_self s' ss)])]
    exact ih r fun x hx => h x (List.mem_cons_of_mem s' hx)

theorem foldMark_value (pid : String) (now : Nat) (results : List (String × Bool)) :
    ∀ (batch : List SelItem) (r : Row) (s : SelItem),
      (batch.map SelItem.hash).Nodup → r.portal_id = pid → s ∈ batch →
      r.identity_hash = s.hash →
      (batch.foldl
        (fun r s =>
          if rowMatches pid s.hash r then
            { r with
              ai_filtered := if !((results.lookup s.title).getD false) then 1 else -1,
              updated_at := now }
          else r) r).ai_filtered
        = if !((results.lookup s.title).getD false) then 1 else -1 := by
  intro batch
  induction batch with
  | nil => intro r s _ _ hs _; cases hs
  | cons s₀ ss ih =>
    intro r s hnd hp hs hh
    have hnd₀ : s₀.hash ∉ ss.map SelItem.hash := (List.nodup_cons.1 (by simpa using hnd)).1
    have hndt : (ss.map SelItem.hash).Nodup := (List.nodup_cons.1 (by simpa using hnd)).2
    rcases List.mem_cons.1 hs with rfl | hmem
    · have hm : rowMatches pid s.hash r = true := by
        unfold rowMatches
        simp [hp, hh]
      rw [List.foldl_cons, if_pos hm]
      rw [foldMark_skip pid now results ss _ ?_]
      · intro s' hs'
        have hne : s'.hash ≠ s.hash := by
          intro he
          apply hnd₀
          rw [← he]
          exact List.mem_map_of_mem SelItem.hash hs'
        have hrh : r.identity_hash ≠ s'.hash := fun hcontra => hne (hcontra.symm.trans hh)
        simp [rowMatches, hrh]
    · have hne : s₀.hash ≠ s.hash := by
        intro he
        apply hnd₀
        rw [he]
        exact List.mem_map_of_mem SelItem.hash hmem
      have hm : rowMatches pid s₀.hash r = false := by
        have hrh : r.identity_hash ≠ s₀.hash := fun hcontra => hne (hcontra.symm.trans hh)
        simp [rowMatches, hrh]
      rw [List.foldl_cons, if_neg (by simp [hm])]
      exact ih r s hndt hp hmem hh

theorem foldMark_key_fields (pid : String) (now : Nat) (results : List (String × Bool)) :
    ∀ (batch : List SelItem) (r : Row),
      ((batch.foldl
        (fun r s =>
          if rowMatches pid s.hash r then
            { r with
              ai_filtered := if !((results.lookup s.title).getD false) then 1 else -1,
              updated_at := now }
          else r) r).portal_id = r.portal_id
      ∧ (batch.foldl
        (fun r s =>
          if rowMatches pid s.hash r then
            { r with
              ai_filtered := if !((results.lookup s.title).getD false) then 1 else -1,
              updated_at := now }
          else r) r).identity_hash = r.identity_hash) := by
  intro batch
  induction batch with
  | nil => intro r; exact ⟨rfl, rfl⟩
  | cons s ss ih =>
    intro r
    rw [List.foldl_cons]
    by_cases hm : rowMatches pid s.hash r
    · rw [if_pos hm]
      exact ih _
    · rw [if_neg hm]
      exact ih r

/-- C10 (amended): if the classification service call for a batch raises,
every previously uncached title of the batch receives the fallback value True
(meaningful) in the returned mapping and in the cache; the marking loop
therefore marks every batch record whose title was previously uncached as
rejected (ai_filtered = -1), excluding it from the kept set (a record whose
title was already cached keeps the cached decision instead); existing cache
entries survive the call, and every title of the batch is cached afterwards,
so none of them is ever part of the submitted list of a later call. -/
theorem classifier_failure_fallback (svc : List String → Except Unit (Nat → Option String))
    (pid : String) (now : Nat) (cache : List (String × Bool))
    (batch : List SelItem) (db : List Row)
    (herr : svc ((batch.map SelItem.title).filter fun u => (cache.lookup u).isNone)
      = .error ())
    (hne : ¬((batch.map SelItem.title).filter fun u => (cache.lookup u).isNone).isEmpty = true)
    (hnd : (batch.map SelItem.hash).Nodup) :
    (∀ t ∈ batch.map SelItem.title, cache.lookup t = none →
      (check_titles svc cache (batch.map SelItem.title)).1.lookup t = some true
      ∧ (check_titles svc cache (batch.map SelItem.title)).2.lookup t = some true)
    ∧ (∀ s ∈ batch, cache.lookup s.title = none →
        ∀ r ∈ markBatch pid now (check_titles svc cache (batch.map SelItem.title)).1 batch db,
          r.portal_id = pid → r.identity_hash = s.hash → r.ai_filtered = -1)
    ∧ (∀ t b, cache.lookup t = some b →
        (check_titles svc cache (batch.map SelItem.title)).2.lookup t = some b)
    ∧ (∀ t ∈ batch.map SelItem.title, ∀ titles₂ : List String,
        t ∉ titles₂.filter fun u =>
          (((check_titles svc cache (batch.map SelItem.title)).2).lookup u).isNone) := by
  have hfall := check_titles_failure_results svc cache (batch.map SelItem.title) herr hne
  refine ⟨hfall, ?_, ?_, ?_⟩
  · intro s hs hn r hr hp hh
    rw [markBatch_eq_map] at hr
    rcases List.mem_map.1 hr with ⟨r₀, hr₀, rfl⟩
    have hkeys := foldMark_key_fields pid now
      (check_titles svc cache (batch.map SelItem.title)).1 batch r₀
    have hp₀ : r₀.portal_id = pid := by rw [← hkeys.1]; exact hp
    have hh₀ : r₀.identity_hash = s.hash := by rw [← hkeys.2]; exact hh
    have hval := foldMark_value pid now
      (check_titles svc cache (batch.map SelItem.title)).1 batch r₀ s hnd hp₀ hs hh₀
    rw [hval]
    have hlook := (hfall s.title (List.mem_map_of_mem SelItem.title hs) hn).1
    rw [hlook]
    rfl
  · intro t b hb
    exact check_titles_cache_preserve svc cache _ t b hb
  · intro t ht titles₂ hmem
    have hp := (List.mem_filter.1 hmem).2
    cases hc : cache.lookup t with
    | some b =>
      have hkeep := check_titles_cache_preserve svc cache (batch.map SelItem.title) t b hc
      rw [hkeep] at hp
      simp at hp
    | none =>
      have hkeep := (hfall t ht hc).2
      rw [hkeep] at hp
      simp at hp

/-- A row of the C10 counterexample: hash h repeated i+1 times, title x
repeated titleLen times, unclassified, pending, with a detail URL. -/
def c10Row (i : Nat) (titleLen : Nat) : Row :=
  { portal_id := "WB", identity_hash := String.mk (List.replicate (i + 1) 'h'),
    portal_source := "West Bengal", s_no := "1", e_published_date := "d",
    closing_date := "c", opening_date := "o",
    title := String.mk (List.replicate titleLen 'x'), org_chain := "g",
    details_url := "/d", work_description := "", run_date := "r",
    phase1_status := "extracted", phase2_status := "pending", ai_filtered := 0,
    created_at := 0, updated_at := 0 }

/-- The 52 unclassified rows: 50 with fresh titles, then one sharing the first
row's title and one with a fresh title, so the second batch of 50 holds one
cached and one uncached title. -/
def c10db : List Row :=
  (List.range 50).map (fun i => c10Row i (i + 1)) ++ [c10Row 50 1, c10Row 51 53]

/-- A service that answers the 50-title first call with unmeaningful for
every index and raises on the second (single-title) call. -/
def c10svc : List String → Except Unit (Nat → Option String) :=
  fun uncached =>
    if uncached.length = 50 then .ok fun _ => some "unmeaningful" else .error ()

set_option maxRecDepth 100000 in
set_option maxHeartbeats 2000000 in
/-- C10 counterexample: the second batch's service call raises, yet the
batch's record whose title was cached as unmeaningful by the first
(successful) batch is marked kept (ai_filtered = 1), not rejected: a record
of a failed batch that escapes the claimed blanket rejection. -/
theorem failed_batch_record_kept :
    c10svc [String.mk (List.replicate 53 'x')] = .error ()
    ∧ ((run_ai_filtering c10svc "WB" 9 c10db []).1.filter
        (fun r => r.identity_hash == String.mk (List.replicate 51 'h'))).map Row.ai_filtered
      = [1] := by
  constructor
  · rfl
  · decide

/-- A service that always raises. -/
def svcFail : List String → Except Unit (Nat → Option String) := fun _ => .error ()

/-- The batch of the C10 witness. -/
def c10wBatch : List SelItem := [⟨"hA", "ta"⟩, ⟨"hB", "tb"⟩]

/-- The row of the C10 witness. -/
def c10wRow : Row := { rowPending with identity_hash := "hA", title := "ta" }

/-- Witness for C10: with an empty cache and a raising service, the concrete
record of the failed batch is marked rejected. -/
theorem classifier_failure_fallback_witness :
    ({ c10wRow with ai_filtered := -1, updated_at := 9 } : Row).ai_filtered = -1 :=
  (classifier_failure_fallback svcFail "WB" 9 [] c10wBatch [c10wRow]
      rfl (by decide) (by decide)).2.1
    ⟨"hA", "ta"⟩ (by decide) rfl
    { c10wRow with ai_filtered := -1, updated_at := 9 } (by decide) rfl rfl

/- ======================= PHASE 1 RESUME (C2) ============================== -/

/-- Python int() on the canonical decimal strings the program itself stores. -/
def python_int (s : String) : Nat :=
  s.data.foldl (fun acc c => acc * 10 + (c.toNat - 48)) 0

/-- Embedding of get_metadata on the scraping_metadata table of one portal. -/
def get_metadata (meta : List (String × String)) (key : String) : Option String :=
  meta.lookup key

/-- Embedding of set_metadata (INSERT OR REPLACE; the freshest entry wins). -/
def set_metadata (meta : List (String × String)) (key value : String) :
    List (String × String) :=
  (key, value) :: meta

/-- The resume computation at the top of run_phase1:
start_page = int(last_page_str) + 1 if last_page_str else 1. -/
def phase1StartPage (meta : List (String × String)) : Nat :=
  match get_metadata meta "last_page_extracted" with
  | some s => python_int s + 1
  | none => 1

/-- State of one run_phase1 execution: the tenders table, the metadata
table, and two ghost traces: the physical listing pages the browser actually
extracted, and the page_num labels the loop used for them. -/
structure Phase1State where
  db : List Row
  meta : List (String × String)
  physicalVisited : List Nat
  loggedPages : List Nat
deriving DecidableEq

/-- One iteration body of the run_phase1 loop: extract the displayed page,
and when it yields tenders upsert them and write the last_page_extracted
checkpoint with the loop's page_num label. -/
def phase1Process (pid : String) (now : Nat) (rows : List Tender) (phys pageNum : Nat)
    (st : Phase1State) : Phase1State :=
  if rows.isEmpty then
    { st with
      physicalVisited := st.physicalVisited ++ [phys]
      loggedPages := st.loggedPages ++ [pageNum] }
  else
    { db := (upsert_tenders_batch pid now st.db rows).1
      meta := set_metadata st.meta "last_page_extracted" (toString pageNum)
      physicalVisited := st.physicalVisited ++ [phys]
      loggedPages := st.loggedPages ++ [pageNum] }

/-- The while-True loop of run_phase1 over the remaining physical pages of
the portal: process the current page, stop when the next control is gone
(here: no further physical page), otherwise navigate forward. -/
def phase1Loop (pid : String) (now : Nat) :
    List (List Tender) → Nat → Nat → Phase1State → Phase1State
  | [], _, _, st => st
  | rows :: rest, phys, pageNum, st =>
    let st' := phase1Process pid now rows phys pageNum st
    match rest with
    | [] => st'
    | r :: rs => phase1Loop pid now (r :: rs) (phys + 1) (pageNum + 1) st'

/-- Embedding of run_phase1.  The page counter starts at the checkpointed
page + 1, but the browser still displays physical page 1: the source logs
RESUMING from page start_page and leaves navigation as a TODO, so extraction
begins at the first physical listing page regardless of the checkpoint. -/
def run_phase1 (pid : String) (now : Nat) (pages : List (List Tender))
    (st : Phase1State) : Phase1State :=
  phase1Loop pid now pages 1 (phase1StartPage st.meta) st

/-- The three physical listing pages of the C2 demonstration. -/
def c2pages : List (List Tender) :=
  [[sampleTender "p1"], [sampleTender "p2"], [sampleTender "p3"]]

/-- A store state checkpointed at last_page_extracted = 5. -/
def c2state : Phase1State :=
  { db := [], meta := [("last_page_extracted", "5")],
    physicalVisited := [], loggedPages := [] }

/-- C2: with checkpoint last_page_extracted = 5 the loop resumes its page
counter at 6, but the browser is never repositioned: the pages actually
extracted are the physical pages 1, 2, 3 (labelled 6, 7, 8 in checkpoints and
logs), not pages 6 onward as the claim requires. -/
theorem run_phase1_resume_does_not_reposition :
    phase1StartPage [("last_page_extracted", "5")] = 6
    ∧ (run_phase1 "WB" 7 c2pages c2state).physicalVisited = [1, 2, 3]
    ∧ (run_phase1 "WB" 7 c2pages c2state).loggedPages = [6, 7, 8] := by
  refine ⟨rfl, by decide, by decide⟩

/- ======================= ORCHESTRATOR EXIT CODES (C7) ===================== -/

/-- The dict returned by run_portal_instance. -/
structure WorkerReturn where
  portal_id : String
  status : String
deriving DecidableEq

/-- Embedding of IsolatedPortalScraper.run's outermost try/except: every
internal exception is caught, logged and recorded as status error; the
method always returns its stats dict. -/
def scraperRun (internal : Except String Unit) : String :=
  match internal with
  | .ok _ => "success"
  | .error _ => "error"

/-- Embedding of run_portal_instance: the body is whatever scraper.run()
evaluation does (ok status: run returned; error: an exception escaped into
run_portal_instance).  Both branches return a dict normally; the error dict
is only the function's return value, never an exception, so the result is
always .ok. -/
def run_portal_instance (pid : String) (body : Except String String) :
    Except String WorkerReturn :=
  match body with
  | .ok _ => .ok { portal_id := pid, status := "success" }
  | .error _ => .ok { portal_id := pid, status := "error" }

/-- multiprocessing semantics: a target that returns normally gives process
exit code 0; an uncaught exception in the target gives a nonzero exit. -/
def processExitcode (target : Except String WorkerReturn) : Nat :=
  match target with
  | .ok _ => 0
  | .error _ => 1

/-- The exit code of one worker process, chaining run_portal_instance into
the process boundary. -/
def workerExitcode (pid : String) (body : Except String String) : Nat :=
  processExitcode (run_portal_instance pid body)

/-- The orchestrator's classification of one worker: completed when the exit
code is 0, failed otherwise. -/
def classifyWorker (exitcode : Nat) : Bool := exitcode == 0

/-- The orchestrator's own exit code: 1 when any worker is classified
failed, 0 otherwise. -/
def orchestratorExit (exitcodes : List Nat) : Nat :=
  if exitcodes.any (fun c => !classifyWorker c) then 1 else 0

/-- C7: a worker hit by a fatal error exits with code 0 either way: when the
scraper catches it internally (run even reports the worker as success), and
when it escapes into run_portal_instance's except branch (the error dict is
returned, not raised; multiprocessing discards it).  The orchestrator then
classifies the failed worker as completed and itself exits 0, against the
claim that both exits are nonzero. -/
theorem worker_fatal_error_exits_zero :
    scraperRun (.error "Navigation failed") = "error"
    ∧ run_portal_instance "WB" (.ok (scraperRun (.error "Navigation failed")))
        = .ok { portal_id := "WB", status := "success" }
    ∧ workerExitcode "WB" (.error "sqlite3 OperationalError: database is locked") = 0
    ∧ workerExitcode "WB" (.ok (scraperRun (.error "Navigation failed"))) = 0
    ∧ classifyWorker (workerExitcode "WB"
        (.error "sqlite3 OperationalError: database is locked")) = true
    ∧ orchestratorExit
        [workerExitcode "WB" (.error "sqlite3 OperationalError: database is locked"),
          0, 0, 0] = 0 := by
  decide
